import Mathlib

/-!
Verification of the OpenSurgSim deformable-body physics core.

This file gives a shallow embedding, in Lean, of the mass-spring and
FEM-element code of the repository (mainly
`SurgSim/Physics/MassSpringRepresentation.cpp`, which also carries the
`FemElement3DTetrahedron` implementation, and the per-frame lifecycle of
`MassSpringRepresentation`), and proves the behavioural claims about it.

Modelling conventions:
* `double` scalars are embedded as `ℚ` (exact arithmetic; claims about
  floating-point values are read up to the tolerance the spec grants).
* Dynamically sized Eigen vectors and matrices are embedded as index
  functions `ℕ → ℚ` and `ℕ → ℕ → ℚ`; all loops of the source become
  folds over the same index lists the source iterates.
* For the per-frame lifecycle, where states can contain non-finite
  (NaN/Inf) entries, scalar entries are embedded as `Option ℚ` with
  `none` standing for any non-finite value.
* `SURGSIM_ASSERT` failure is embedded as an `Option.none` result.
* Parts of the repository that are referenced here but whose code is not
  available (base classes, the ODE solver, mocks) are modelled from the
  specification; each such definition carries a doc comment starting
  with `Modelled from the spec:`.
-/

namespace OpenSurgSim

/-- A dynamically sized vector of doubles (`SurgSim::Math::Vector`),
embedded as an index function; the live size is carried separately. -/
abbrev Vec : Type := ℕ → ℚ

/-- A dynamically sized square matrix of doubles (`SurgSim::Math::Matrix`). -/
abbrev Mat : Type := ℕ → ℕ → ℚ

/-- The zero vector (a freshly resized-and-zeroed Eigen vector). -/
def zeroVec : Vec := fun _ => 0

/-- The zero matrix (a freshly resized-and-zeroed Eigen matrix). -/
def zeroMat : Mat := fun _ _ => 0

/-- Matrix-vector product of an `n × n` matrix with an `n`-vector. -/
def matVec (n : ℕ) (A : Mat) (v : Vec) : Vec :=
  fun i => ∑ j ∈ Finset.range n, A i j * v j

/-- `DeformableRepresentationState`: positions, velocities and the
boundary-condition index set of one deformable body
(`SurgSim/Physics/DeformableRepresentationState.h`, as used by the
assembly code).  `numDof` is `getNumDof()`. -/
structure DeformableRepresentationState where
  numDof : ℕ
  positions : Vec
  velocities : Vec
  boundaryConditions : List ℕ

/-- Modelled from the spec: the `Spring` base class is not under `src/`
(only its call sites in `MassSpringRepresentation.cpp` are).  Per the
element contract of spec section 4.1, a spring owns local force, damping
and stiffness contributions, here already laid out at its nodes' global
indices as functions of the state. -/
structure Spring where
  force : DeformableRepresentationState → Vec
  damp : DeformableRepresentationState → Mat
  stiff : DeformableRepresentationState → Mat

/-- Modelled from the spec: `Spring::addForce(state, F, scale)`
scatter-adds the scaled local force into the global force vector. -/
def Spring.addForce (s : Spring) (st : DeformableRepresentationState)
    (F : Vec) (scale : ℚ) : Vec :=
  fun i => F i + scale * s.force st i

/-- Modelled from the spec: `Spring::addDamping(state, D, scale)`. -/
def Spring.addDamping (s : Spring) (st : DeformableRepresentationState)
    (D : Mat) (scale : ℚ) : Mat :=
  fun i j => D i j + scale * s.damp st i j

/-- Modelled from the spec: `Spring::addStiffness(state, K, scale)`. -/
def Spring.addStiffness (s : Spring) (st : DeformableRepresentationState)
    (K : Mat) (scale : ℚ) : Mat :=
  fun i j => K i j + scale * s.stiff st i j

/-- Modelled from the spec: `Spring::addFDK(state, F, D, K)` adds the
force, damping and stiffness contributions in one pass (scale 1). -/
def Spring.addFDK (s : Spring) (st : DeformableRepresentationState)
    (F : Vec) (D : Mat) (K : Mat) : Vec × Mat × Mat :=
  (s.addForce st F 1, s.addDamping st D 1, s.addStiffness st K 1)

/-- Modelled from the spec: `Spring::addMatVec(state, alphaD, alphaK, x, F)`
adds `alphaD * D_local * x + alphaK * K_local * x` to `F` without
materialising global matrices, and is a no-op when both scalars are 0. -/
def Spring.addMatVec (s : Spring) (st : DeformableRepresentationState)
    (alphaD alphaK : ℚ) (x : Vec) (n : ℕ) (F : Vec) : Vec :=
  if alphaD = 0 ∧ alphaK = 0 then F
  else fun i => F i + alphaD * matVec n (s.damp st) x i
                    + alphaK * matVec n (s.stiff st) x i

/-- `MassSpringRepresentation`: the masses (one scalar mass per node),
springs, Rayleigh coefficients and gravity settings of one body. -/
structure MassSpringRepresentation where
  masses : List ℚ
  springs : List Spring
  rayleighDampingMass : ℚ
  rayleighDampingStiffness : ℚ
  gravityEnabled : Bool
  gravity : Vec

/-- `getNumMasses()`. -/
def MassSpringRepresentation.getNumMasses (rep : MassSpringRepresentation) : ℕ :=
  rep.masses.length

/-- `getMass(nodeId)->getMass()`. -/
def MassSpringRepresentation.massValue (rep : MassSpringRepresentation)
    (nodeId : ℕ) : ℚ :=
  rep.masses.getD nodeId 0

/-- The raw diagonal of the mass matrix before boundary conditions:
`computeM`'s per-mass loop writes `mass` on each of the node's three dofs
(dofs at or beyond `3 * numMasses` are never written). -/
def MassSpringRepresentation.massDiagonal (rep : MassSpringRepresentation) : Vec :=
  fun i => if i < 3 * rep.getNumMasses then rep.massValue (i / 3) else 0

/-- `addGravityForce(f, state, scale = 1)`: when gravity is enabled, adds
`gravity * mass` on each node's three dofs. -/
def MassSpringRepresentation.addGravityForce (rep : MassSpringRepresentation)
    (_st : DeformableRepresentationState) (f : Vec) : Vec :=
  if rep.gravityEnabled then
    fun i => if i < 3 * rep.getNumMasses then
               f i + rep.gravity (i % 3) * rep.massValue (i / 3)
             else f i
  else f

/-- The boundary-condition pass over a (diagonal or force) vector: for
each boundary-condition index, write the constant `c` there (`c = 1e9`
for the mass diagonal, `c = 0` for the force vector). -/
def applyBcVec (c : ℚ) (bcs : List ℕ) (f : Vec) : Vec :=
  bcs.foldl (fun g bc => Function.update g bc c) f

/-- One boundary-condition step on a matrix: zero row `bc` and column
`bc` (over the `n` live columns/rows) and set the diagonal entry to
`1e9`, exactly as in `computeD` / `computeK` / `computeFMDK`. -/
def bcZeroRowCol (n bc : ℕ) (A : Mat) : Mat :=
  fun i j =>
    if i = bc ∧ j = bc then 1000000000
    else if i = bc ∧ j < n then 0
    else if j = bc ∧ i < n then 0
    else A i j

/-- The boundary-condition pass over a matrix. -/
def applyBcMat (n : ℕ) (bcs : List ℕ) (A : Mat) : Mat :=
  bcs.foldl (fun B bc => bcZeroRowCol n bc B) A

/-- `computeM(state)`: diagonal mass matrix (as its diagonal vector),
then `diagonal[bc] = 1e9` for every boundary condition. -/
def MassSpringRepresentation.computeM (rep : MassSpringRepresentation)
    (st : DeformableRepresentationState) : Vec :=
  applyBcVec 1000000000 st.boundaryConditions rep.massDiagonal

/-- `computeD(state)`: `D = rayleighMass * M + rayleighStiffness * K +
springs' damping`, then the boundary-condition pass. -/
def MassSpringRepresentation.computeD (rep : MassSpringRepresentation)
    (st : DeformableRepresentationState) : Mat :=
  let rM := rep.rayleighDampingMass
  let rS := rep.rayleighDampingStiffness
  let D1 : Mat :=
    if rM ≠ 0 then
      fun i j => if i = j ∧ i < 3 * rep.getNumMasses then rM * rep.massValue (i / 3)
                 else zeroMat i j
    else zeroMat
  let D2 := if rS ≠ 0 then rep.springs.foldl (fun D s => s.addStiffness st D rS) D1 else D1
  let D3 := rep.springs.foldl (fun D s => s.addDamping st D 1) D2
  applyBcMat st.numDof st.boundaryConditions D3

/-- `computeK(state)`: sum of the springs' stiffness contributions, then
the boundary-condition pass. -/
def MassSpringRepresentation.computeK (rep : MassSpringRepresentation)
    (st : DeformableRepresentationState) : Mat :=
  applyBcMat st.numDof st.boundaryConditions
    (rep.springs.foldl (fun K s => s.addStiffness st K 1) zeroMat)

/-- The spring loop of `computeFMDK`: fold `Spring::addFDK` over all
springs starting from freshly zeroed `f`, `D`, `K`. -/
def MassSpringRepresentation.assembleFDK (rep : MassSpringRepresentation)
    (st : DeformableRepresentationState) : Vec × Mat × Mat :=
  rep.springs.foldl (fun acc s => s.addFDK st acc.1 acc.2.1 acc.2.2)
    (zeroVec, zeroMat, zeroMat)

/-- The damping matrix `m_D` as it stands inside `computeFMDK` when
`addRayleighDampingForce` is called: springs' damping from `addFDK`,
plus `m_M.diagonal() * rayleighMass` on the diagonal (where `m_M` has
already been through `computeM`'s boundary-condition pass), plus
`m_K * rayleighStiffness`. -/
def MassSpringRepresentation.fmdkDampingMatrix (rep : MassSpringRepresentation)
    (st : DeformableRepresentationState) : Mat :=
  let rM := rep.rayleighDampingMass
  let rS := rep.rayleighDampingStiffness
  let D1 := (rep.assembleFDK st).2.1
  let D2 : Mat :=
    if rM ≠ 0 then fun i j => D1 i j + (if i = j then rep.computeM st i * rM else 0)
    else D1
  if rS ≠ 0 then fun i j => D2 i j + (rep.assembleFDK st).2.2 i j * rS else D2

/-- `addRayleighDampingForce(force, state, useGlobalDampingMatrix,
useGlobalStiffnessMatrix, useGlobalMassMatrix, scale)`.  The member
matrices `m_D`, `m_K` and the mass diagonal `m_M.diagonal()` are passed
explicitly (`Dmat`, `Kmat`, `Mdiag`) since the embedding is stateless. -/
def MassSpringRepresentation.addRayleighDampingForce
    (rep : MassSpringRepresentation) (Dmat Kmat : Mat) (Mdiag : Vec)
    (st : DeformableRepresentationState) (force : Vec)
    (useGlobalDampingMatrix useGlobalStiffnessMatrix useGlobalMassMatrix : Bool)
    (scale : ℚ) : Vec :=
  let rM := rep.rayleighDampingMass
  let rS := rep.rayleighDampingStiffness
  let v := st.velocities
  if useGlobalDampingMatrix = true ∧ (rS ≠ 0 ∨ rM ≠ 0) then
    fun i => force i - scale * matVec st.numDof Dmat v i
  else
    let f1 :=
      if rM ≠ 0 then
        if useGlobalMassMatrix then
          fun i => force i - scale * rM * (Mdiag i * v i)
        else
          fun i => if i < 3 * rep.getNumMasses then
                     force i - scale * rM * rep.massValue (i / 3) * v i
                   else force i
      else force
    if rS ≠ 0 then
      if useGlobalStiffnessMatrix then
        fun i => f1 i - scale * rS * matVec st.numDof Kmat v i
      else
        rep.springs.foldl (fun f s => s.addMatVec st 0 (-(scale * rS)) v st.numDof f) f1
    else f1

/-- The Rayleigh-damping call exactly as issued from `computeFMDK`:
`addRayleighDampingForce(&m_f, state, true)` with `m_D`, `m_K`, `m_M`
holding `computeFMDK`'s intermediate matrices. -/
def rayleighForceGlobalMatrixPath (rep : MassSpringRepresentation)
    (st : DeformableRepresentationState) (f : Vec) : Vec :=
  rep.addRayleighDampingForce (rep.fmdkDampingMatrix st) (rep.assembleFDK st).2.2
    (rep.computeM st) st f true false false 1

/-- The Rayleigh-damping call exactly as issued from `computeF`:
`addRayleighDampingForce(&m_f, state)` with the default flags (all
`false`, scale 1); the member matrices are not read on this path. -/
def rayleighForceMatrixFreePath (rep : MassSpringRepresentation)
    (st : DeformableRepresentationState) (f : Vec) : Vec :=
  rep.addRayleighDampingForce zeroMat zeroMat zeroVec st f false false false 1

/-- `computeF(state)`: gravity, Rayleigh damping (matrix-free path),
springs' forces, then `F[bc] = 0` for every boundary condition. -/
def MassSpringRepresentation.computeF (rep : MassSpringRepresentation)
    (st : DeformableRepresentationState) : Vec :=
  let f1 := rep.addGravityForce st zeroVec
  let f2 := rayleighForceMatrixFreePath rep st f1
  let f3 := rep.springs.foldl (fun f s => s.addForce st f 1) f2
  applyBcVec 0 st.boundaryConditions f3

/-- `computeFMDK(state, f, M, D, K)`: assembles all four quantities,
adds the Rayleigh matrices and forces, and runs the boundary-condition
pass on all four; returned as `(f, M-diagonal, D, K)`. -/
def MassSpringRepresentation.computeFMDK (rep : MassSpringRepresentation)
    (st : DeformableRepresentationState) : Vec × Vec × Mat × Mat :=
  let Mdiag := rep.computeM st
  let K1 := (rep.assembleFDK st).2.2
  let f2 := rep.addGravityForce st (rep.assembleFDK st).1
  let f3 := rayleighForceGlobalMatrixPath rep st f2
  (applyBcVec 0 st.boundaryConditions f3,
   applyBcVec 1000000000 st.boundaryConditions Mdiag,
   applyBcMat st.numDof st.boundaryConditions (rep.fmdkDampingMatrix st),
   applyBcMat st.numDof st.boundaryConditions K1)

/-- The global stiffness matrix as the spec describes it: the sum of the
springs' stiffness contributions (no boundary conditions). -/
def springStiffnessSum (springs : List Spring)
    (st : DeformableRepresentationState) : Mat :=
  fun i j => (springs.map fun s => s.stiff st i j).sum

/-- Written from the spec's words, for the refinement claim: the Rayleigh
damping force `-(rayleighMass * M + rayleighStiffness * K) * v`, with `M`
the diagonal mass matrix of the body's masses and `K` the assembled
global stiffness matrix. -/
def rayleighDampingForceSpec (rep : MassSpringRepresentation)
    (st : DeformableRepresentationState) : Vec :=
  fun i =>
    -(matVec st.numDof
        (fun a b => rep.rayleighDampingMass * (if a = b then rep.massDiagonal a else 0)
                    + rep.rayleighDampingStiffness * springStiffnessSum rep.springs st a b)
        st.velocities i)

/-- The boundary-condition row/column property claimed for `D` and `K`:
diagonal entry `1e9`, all other entries of row `i` and column `i` zero. -/
def BcRowColProperty (n i : ℕ) (A : Mat) : Prop :=
  A i i = 1000000000 ∧ ∀ j, j < n → j ≠ i → A i j = 0 ∧ A j i = 0

/-! Per-frame lifecycle of `MassSpringRepresentation`
(`beforeUpdate` / `update` / `afterUpdate` / `applyCorrection`).
Scalar entries are `Option ℚ`: `none` stands for any non-finite double. -/

/-- A double that may be non-finite: `some q` is a finite value, `none`
is NaN or an infinity. -/
abbrev EDouble : Type := Option ℚ

/-- Addition on possibly non-finite doubles: any non-finite operand
makes the result non-finite. -/
def eAdd : EDouble → EDouble → EDouble
  | some a, some b => some (a + b)
  | _, _ => none

/-- Multiplication on possibly non-finite doubles. -/
def eMul : EDouble → EDouble → EDouble
  | some a, some b => some (a * b)
  | _, _ => none

/-- A lifecycle state: position/velocity/acceleration vectors whose
entries may be non-finite. -/
structure MState where
  positions : List EDouble
  velocities : List EDouble
  accelerations : List EDouble
  deriving DecidableEq

/-- Modelled from the spec: `SurgSim::Math::isValid` on a vector
(`Valid.h` is not under `src/`); per spec section 4.4 it holds iff all
entries are finite. -/
def isValidVector (v : List EDouble) : Bool :=
  v.all Option.isSome

/-- `MassSpringRepresentation::isValidState(state)`: positions and
velocities are both valid vectors. -/
def isValidState (st : MState) : Bool :=
  isValidVector st.positions && isValidVector st.velocities

/-- A mass-spring body as seen by the per-frame entry points.  The four
shared-pointer state members are embedded as buffer ids into a `store`,
so that pointer swaps and buffer reuse are observable. -/
structure MassSpringBody where
  isActive : Bool
  store : ℕ → MState
  previousId : ℕ
  currentId : ℕ
  newId : ℕ
  finalId : ℕ
  initialState : MState
  hasInitialState : Bool
  hasOdeSolver : Bool
  numMasses : ℕ
  numSprings : ℕ
  numDof : ℕ

/-- Modelled from the spec: `DeformableRepresentation::resetState` is
not under `src/`; per spec section 4.4 the failing body is "reset to its
rest state", modelled as restoring the previous and current state
buffers from the initial (rest) state. -/
def MassSpringBody.resetState (b : MassSpringBody) : MassSpringBody :=
  let store' := Function.update
    (Function.update b.store b.currentId b.initialState) b.previousId b.initialState
  { b with store := store' }

/-- `deactivateAndReset()`: log (elided), reset the state, deactivate. -/
def MassSpringBody.deactivateAndReset (b : MassSpringBody) : MassSpringBody :=
  { b.resetState with isActive := false }

/-- `beforeUpdate(dt)`: early-out when inactive; assert the
mass/dof/spring/state consistency conditions (`none` on violation); then
the base-class `DeformableRepresentation::beforeUpdate` (not under
`src/`, modelled from the spec: lazily construct the ODE solver on first
call). -/
def MassSpringBody.beforeUpdate (b : MassSpringBody) (_dt : ℚ) :
    Option MassSpringBody :=
  if b.isActive = false then some b
  else if ¬ 3 * b.numMasses = b.numDof then none
  else if b.numMasses = 0 then none
  else if b.numSprings = 0 then none
  else if b.numDof = 0 then none
  else some (if b.hasOdeSolver then b else { b with hasOdeSolver := true })

/-- `update(dt)`: early-out when inactive; assert the solver and the
initial state are present; solve into the `new` buffer; swap
`current ↔ previous`, then `current ↔ new`.  The solver is the abstract
`m_odeSolver->solve(dt, *m_currentState, m_newState.get())`. -/
def MassSpringBody.update (b : MassSpringBody)
    (solver : ℚ → MState → MState) (dt : ℚ) : Option MassSpringBody :=
  if b.isActive = false then some b
  else if ¬ b.hasOdeSolver then none
  else if ¬ b.hasInitialState then none
  else
    some { b with
      store := Function.update b.store b.newId (solver dt (b.store b.currentId)),
      previousId := b.currentId,
      currentId := b.newId,
      newId := b.previousId }

/-- How many times one `update(dt)` call invokes the solver's `solve`:
mirrors `update`'s control flow (the early returns precede the call). -/
def MassSpringBody.updateSolveCalls (b : MassSpringBody) : ℕ :=
  if b.isActive = false then 0
  else if ¬ b.hasOdeSolver then 0
  else if ¬ b.hasInitialState then 0
  else 1

/-- `afterUpdate(dt)`: early-out when inactive; if the current state is
invalid, `deactivateAndReset`; otherwise commit `current` into `final`.
The function has no assertion and no throwing operation, so it always
returns `some`. -/
def MassSpringBody.afterUpdate (b : MassSpringBody) (_dt : ℚ) :
    Option MassSpringBody :=
  if b.isActive = false then some b
  else if ¬ isValidState (b.store b.currentId) then some b.deactivateAndReset
  else some { b with
    store := Function.update b.store b.finalId (b.store b.currentId) }

/-- Entry-wise `deltaVelocity * dt` (`eMul` propagates non-finites). -/
def listMulScalar (dt : ℚ) (delta : List EDouble) : List EDouble :=
  delta.map fun d => eMul d (some dt)

/-- Entry-wise vector addition (`+=` on Eigen vectors). -/
def listAdd (xs ys : List EDouble) : List EDouble :=
  List.zipWith eAdd xs ys

/-- The corrected current state built by `applyCorrection`:
`positions += deltaVelocity * dt`, `velocities += deltaVelocity`. -/
def correctedState (cur : MState) (dt : ℚ) (delta : List EDouble) : MState :=
  { cur with positions := listAdd cur.positions (listMulScalar dt delta),
             velocities := listAdd cur.velocities delta }

/-- `applyCorrection(dt, deltaVelocity)`: early-out when inactive; apply
the correction to the current state; `deactivateAndReset` when the
corrected state is invalid.  No assertion, so it always returns `some`. -/
def MassSpringBody.applyCorrection (b : MassSpringBody) (dt : ℚ)
    (delta : List EDouble) : Option MassSpringBody :=
  if b.isActive = false then some b
  else
    let cur' := correctedState (b.store b.currentId) dt delta
    let b' := { b with store := Function.update b.store b.currentId cur' }
    if ¬ isValidState cur' then some b'.deactivateAndReset else some b'

/-! Runge-Kutta 4 for the point-mass scenario
(`OdeSolverRungeKutta4Tests.cpp`; the solver itself is not under `src/`). -/

/-- A 3-vector of doubles (`SurgSim::Math::Vector3d`). -/
structure V3 where
  x : ℚ
  y : ℚ
  z : ℚ
  deriving DecidableEq

/-- Component-wise addition. -/
def V3.add (a b : V3) : V3 := ⟨a.x + b.x, a.y + b.y, a.z + b.z⟩

instance : Add V3 := ⟨V3.add⟩

/-- Scalar multiplication. -/
def V3.smul (c : ℚ) (a : V3) : V3 := ⟨c * a.x, c * a.y, c * a.z⟩

/-- The state `y = (position, velocity)` of the single point mass. -/
structure MassPointState where
  pos : V3
  vel : V3
  deriving DecidableEq

/-- Component-wise addition of point-mass states. -/
def MassPointState.add (a b : MassPointState) : MassPointState :=
  ⟨a.pos + b.pos, a.vel + b.vel⟩

/-- Scalar multiplication of a point-mass state. -/
def MassPointState.smul (c : ℚ) (a : MassPointState) : MassPointState :=
  ⟨V3.smul c a.pos, V3.smul c a.vel⟩

/-- Modelled from the spec: the `MassPoint` mock's gravity vector (the
test checks the motion is along `-UnitY`), standard gravity along -y. -/
def massPointGravity : V3 := ⟨0, -981/100, 0⟩

/-- Modelled from the spec: the first-order reduction `y' = f(t, y)` of
the point-mass equation of motion, `f(t, (x, v)) = (v, g - (c/m) v)`
with viscosity `c` and mass `m` (the equations written out in
`OdeSolverRungeKutta4Tests.cpp`). -/
def massPointODE (m c : ℚ) (g : V3) (y : MassPointState) : MassPointState :=
  ⟨y.vel, g + V3.smul (-(c / m)) y.vel⟩

/-- Modelled from the spec: `OdeSolverRungeKutta4::solve` is not under
`src/`; per spec section 4.3, four stage evaluations `k1..k4` of
`y' = f(t, y)` combined as `y(n+1) = y(n) + dt/6 (k1 + 2 k2 + 2 k3 + k4)`,
with `k2`, `k3` evaluated at `y + k * dt/2` and `k4` at `y + k3 * dt`. -/
def rk4Solve (f : MassPointState → MassPointState) (dt : ℚ)
    (y : MassPointState) : MassPointState :=
  let k1 := f y
  let k2 := f (y.add (MassPointState.smul (dt / 2) k1))
  let k3 := f (y.add (MassPointState.smul (dt / 2) k2))
  let k4 := f (y.add (MassPointState.smul dt k3))
  y.add (MassPointState.smul (dt / 6)
    (k1.add ((MassPointState.smul 2 k2).add ((MassPointState.smul 2 k3).add k4))))

/-- The closed-form four-stage combination written out in
`OdeSolverRungeKutta4Tests.cpp`, `doSolveTest`, no-viscosity block:
`k1..k4` with constant gravity as velocity derivative, combined as
`yn + dt/6 (k1 + k4 + 2 (k2 + k3))`. -/
def doSolveTestExpected (g : V3) (dt : ℚ) (yn : MassPointState) : MassPointState :=
  let k1p := yn.vel
  let k1v := g
  let k2p := yn.vel + V3.smul (dt / 2) k1v
  let k2v := g
  let k3p := yn.vel + V3.smul (dt / 2) k2v
  let k3v := g
  let k4p := yn.vel + V3.smul dt k3v
  let k4v := g
  ⟨yn.pos + V3.smul (dt / 6) (k1p + k4p + V3.smul 2 (k2p + k3p)),
   yn.vel + V3.smul (dt / 6) (k1v + k4v + V3.smul 2 (k2v + k3v))⟩

/-! `FemElement3DTetrahedron` (second part of the
`MassSpringRepresentation.cpp` source file). -/

/-- The determinant of 3 vectors, exactly as the anonymous-namespace
`det` helper computes it. -/
def det3 (a b c : V3) : ℚ :=
  a.x * b.y * c.z + a.z * b.x * c.y + a.y * b.z * c.x
    - a.z * b.y * c.x - a.y * b.x * c.z - a.x * b.z * c.y

/-- `FemElement3DTetrahedron::getVolume(state)`: one sixth of the 4x4
determinant expanded into signed 3x3 determinants. -/
def tetGetVolume (p0 p1 p2 p3 : V3) : ℚ :=
  (det3 p1 p2 p3 - det3 p0 p2 p3 + det3 p0 p1 p3 - det3 p0 p1 p2) / 6

/-- One block write of `computeMass`: assign `value * Identity(3)` to
the 3x3 block at block-row `r`, block-column `c`. -/
def writeBlock3 (r c : ℕ) (value : ℚ) (M : Mat) : Mat :=
  fun i j =>
    if 3 * r ≤ i ∧ i < 3 * r + 3 ∧ 3 * c ≤ j ∧ j < 3 * c + 3 then
      (if i - 3 * r = j - 3 * c then value else 0)
    else M i j

/-- `FemElement3DTetrahedron::computeMass(state, M)`: with
`coef = volume * rho / 20`, write `2 coef * I` on the diagonal blocks and
`coef * I` off-diagonal, looping block-rows then block-columns 0..3. -/
def tetComputeMass (rho : ℚ) (p0 p1 p2 p3 : V3) : Mat :=
  let coef := tetGetVolume p0 p1 p2 p3 * rho / 20
  [0, 1, 2, 3].foldl (fun M r =>
    [0, 1, 2, 3].foldl (fun M c =>
      writeBlock3 r c (if r = c then 2 * coef else coef) M) M) zeroMat

/-- `SurgSim::Math::Geometry::ScalarEpsilon = 1e-10` (value per the
spec; `Geometry.h` is not under `src/`). -/
def ScalarEpsilon : ℚ := 1 / 10000000000

/-- `FemElement3DTetrahedron::isValidCoordinate(naturalCoordinate)`:
the components sum to 1 within `ScalarEpsilon` and there are 4 of them. -/
def tetIsValidCoordinate (naturalCoordinate : List ℚ) : Bool :=
  (|naturalCoordinate.sum - 1| < ScalarEpsilon) && (naturalCoordinate.length = 4)

/-- `FemElement3DTetrahedron::computeCartesianCoordinate(state,
naturalCoordinate)`: assert validity (`none` on violation), then
interpolate the four nodal positions by the coordinate weights. -/
def tetComputeCartesianCoordinate (p0 p1 p2 p3 : V3)
    (naturalCoordinate : List ℚ) : Option V3 :=
  if tetIsValidCoordinate naturalCoordinate then
    some (V3.smul (naturalCoordinate.getD 0 0) p0
      + V3.smul (naturalCoordinate.getD 1 0) p1
      + V3.smul (naturalCoordinate.getD 2 0) p2
      + V3.smul (naturalCoordinate.getD 3 0) p3)
  else none

/-- Modelled from the spec: the `FemElement` base-class material
validation performed by `FemElement::initialize` (not under `src/`); per
spec sections 4.1 and 7: mass density > 0, Young's modulus > 0, and
Poisson ratio in [0, 0.5). -/
def validMaterialParameters (rho E nu : ℚ) : Bool :=
  (0 < rho) && (0 < E) && (0 ≤ nu) && (nu < 1 / 2)

/-- The data `FemElement3DTetrahedron::initialize` caches on success
(rest volume and local mass matrix; the local stiffness matrix is cached
too but not needed by any claim). -/
structure FemElement3DTetrahedronData where
  restVolume : ℚ
  massMatrix : Mat

/-- `FemElement3DTetrahedron::initialize(restState)`: base-class
material validation, then the per-node range check
`nodeId < state.getNumNodes()`; on success compute and cache the element
data.  `p0..p3` are the rest positions of the element's four nodes. -/
def femElement3DTetrahedronInit (rho E nu : ℚ) (nodeIds : List ℕ)
    (numNodes : ℕ) (p0 p1 p2 p3 : V3) : Option FemElement3DTetrahedronData :=
  if ¬ validMaterialParameters rho E nu then none
  else if ¬ nodeIds.all (fun nodeId => nodeId < numNodes) then none
  else some ⟨tetGetVolume p0 p1 p2 p3, tetComputeMass rho p0 p1 p2 p3⟩

/-! Theorems.  First, helper lemmas about the boundary-condition passes. -/

theorem applyBcVec_cons (c : ℚ) (b : ℕ) (bcs : List ℕ) (f : Vec) :
    applyBcVec c (b :: bcs) f = applyBcVec c bcs (Function.update f b c) := rfl

theorem applyBcVec_not_mem (c : ℚ) (bcs : List ℕ) (f : Vec) (i : ℕ)
    (h : i ∉ bcs) : applyBcVec c bcs f i = f i := by
  induction bcs generalizing f with
  | nil => rfl
  | cons b rest ih =>
    rw [applyBcVec_cons, ih _ (fun hm => h (List.mem_cons_of_mem _ hm))]
    exact Function.update_noteq
      (fun hib => h (by rw [hib]; exact List.mem_cons_self b rest)) _ _

theorem applyBcVec_mem (c : ℚ) (bcs : List ℕ) (f : Vec) (i : ℕ)
    (h : i ∈ bcs) : applyBcVec c bcs f i = c := by
  induction bcs generalizing f with
  | nil => cases h
  | cons b rest ih =>
    by_cases hmem : i ∈ rest
    · rw [applyBcVec_cons]; exact ih _ hmem
    · have hib : i = b := by
        rcases List.mem_cons.mp h with h1 | h2
        · exact h1
        · exact absurd h2 hmem
      subst hib
      rw [applyBcVec_cons, applyBcVec_not_mem _ _ _ _ hmem]
      exact Function.update_same _ _ _

theorem applyBcMat_cons (n : ℕ) (b : ℕ) (bcs : List ℕ) (A : Mat) :
    applyBcMat n (b :: bcs) A = applyBcMat n bcs (bcZeroRowCol n b A) := rfl

theorem bcZeroRowCol_self (n i : ℕ) (A : Mat) :
    BcRowColProperty n i (bcZeroRowCol n i A) := by
  refine ⟨by simp [bcZeroRowCol], fun j hj hji => ⟨?_, ?_⟩⟩
  · simp [bcZeroRowCol, hj, hji]
  · simp [bcZeroRowCol, hj, hji]

theorem bcZeroRowCol_preserve (n i b : ℕ) (A : Mat) (hbi : b ≠ i)
    (h : BcRowColProperty n i A) :
    BcRowColProperty n i (bcZeroRowCol n b A) := by
  obtain ⟨hdiag, hoff⟩ := h
  have hib : i ≠ b := fun hh => hbi hh.symm
  refine ⟨?_, fun j hj hji => ⟨?_, ?_⟩⟩
  · simp [bcZeroRowCol, hib, hdiag]
  · by_cases hjb : j = b
    · subst hjb
      simp [bcZeroRowCol, hib]
      intro hn
      exact (hoff j hj hji).1
    · simp [bcZeroRowCol, hib, hjb]
      exact (hoff j hj hji).1
  · by_cases hjb : j = b
    · subst hjb
      simp [bcZeroRowCol, hib]
      intro hn
      exact (hoff j hj hji).2
    · simp [bcZeroRowCol, hib, hjb]
      exact (hoff j hj hji).2

theorem applyBcMat_preserve (n i : ℕ) (bcs : List ℕ) (A : Mat)
    (hi : i ∉ bcs) (h : BcRowColProperty n i A) :
    BcRowColProperty n i (applyBcMat n bcs A) := by
  induction bcs generalizing A with
  | nil => exact h
  | cons b rest ih =>
    rw [applyBcMat_cons]
    exact ih _ (fun hm => hi (List.mem_cons_of_mem _ hm))
      (bcZeroRowCol_preserve n i b A
        (fun hbi => hi (hbi ▸ List.mem_cons_self b rest)) h)

theorem applyBcMat_mem (n i : ℕ) (bcs : List ℕ) (A : Mat)
    (h : i ∈ bcs) : BcRowColProperty n i (applyBcMat n bcs A) := by
  induction bcs generalizing A with
  | nil => cases h
  | cons b rest ih =>
    by_cases hmem : i ∈ rest
    · rw [applyBcMat_cons]; exact ih _ hmem
    · have hib : i = b := by
        rcases List.mem_cons.mp h with h1 | h2
        · exact h1
        · exact absurd h2 hmem
      subst hib
      rw [applyBcMat_cons]
      exact applyBcMat_preserve n i rest _ hmem (bcZeroRowCol_self n i A)

/-- C1: for every mass-spring body and every state whose
boundary-condition index set contains `i`, after `computeFMDK` (and
likewise after the individual `computeF` / `computeM` / `computeD` /
`computeK` calls) the assembled quantities satisfy `F[i] = 0`,
`M[i,i] = 1e9`, `D[i,i] = K[i,i] = 1e9`, and every off-diagonal entry in
row `i` and column `i` of `D` and of `K` is zero. -/
theorem computeFMDK_boundaryConditions (rep : MassSpringRepresentation)
    (st : DeformableRepresentationState) (i : ℕ)
    (h : i ∈ st.boundaryConditions) :
    (rep.computeFMDK st).1 i = 0 ∧
    (rep.computeFMDK st).2.1 i = 1000000000 ∧
    BcRowColProperty st.numDof i (rep.computeFMDK st).2.2.1 ∧
    BcRowColProperty st.numDof i (rep.computeFMDK st).2.2.2 ∧
    rep.computeF st i = 0 ∧
    rep.computeM st i = 1000000000 ∧
    BcRowColProperty st.numDof i (rep.computeD st) ∧
    BcRowColProperty st.numDof i (rep.computeK st) := by
  refine ⟨?_, ?_, ?_, ?_, ?_, ?_, ?_, ?_⟩
  · exact applyBcVec_mem 0 _ _ i h
  · exact applyBcVec_mem 1000000000 _ _ i h
  · exact applyBcMat_mem _ i _ _ h
  · exact applyBcMat_mem _ i _ _ h
  · exact applyBcVec_mem 0 _ _ i h
  · exact applyBcVec_mem 1000000000 _ _ i h
  · exact applyBcMat_mem _ i _ _ h
  · exact applyBcMat_mem _ i _ _ h

/-! Helper lemmas for the Rayleigh-damping refinement claim. -/

theorem foldl_addFDK_force (l : List Spring) (st : DeformableRepresentationState)
    (F : Vec) (D K : Mat) (i : ℕ) :
    (l.foldl (fun acc s => s.addFDK st acc.1 acc.2.1 acc.2.2) (F, D, K)).1 i
      = F i + (l.map fun s => s.force st i).sum := by
  induction l generalizing F D K with
  | nil => simp
  | cons s rest ih =>
    rw [List.foldl_cons]
    show (rest.foldl _ (s.addForce st F 1, s.addDamping st D 1, s.addStiffness st K 1)).1 i = _
    rw [ih]
    simp [Spring.addForce]
    ring

theorem foldl_addFDK_damp (l : List Spring) (st : DeformableRepresentationState)
    (F : Vec) (D K : Mat) (i j : ℕ) :
    (l.foldl (fun acc s => s.addFDK st acc.1 acc.2.1 acc.2.2) (F, D, K)).2.1 i j
      = D i j + (l.map fun s => s.damp st i j).sum := by
  induction l generalizing F D K with
  | nil => simp
  | cons s rest ih =>
    rw [List.foldl_cons]
    show (rest.foldl _ (s.addForce st F 1, s.addDamping st D 1, s.addStiffness st K 1)).2.1 i j = _
    rw [ih]
    simp [Spring.addDamping]
    ring

theorem foldl_addFDK_stiff (l : List Spring) (st : DeformableRepresentationState)
    (F : Vec) (D K : Mat) (i j : ℕ) :
    (l.foldl (fun acc s => s.addFDK st acc.1 acc.2.1 acc.2.2) (F, D, K)).2.2 i j
      = K i j + (l.map fun s => s.stiff st i j).sum := by
  induction l generalizing F D K with
  | nil => simp
  | cons s rest ih =>
    rw [List.foldl_cons]
    show (rest.foldl _ (s.addForce st F 1, s.addDamping st D 1, s.addStiffness st K 1)).2.2 i j = _
    rw [ih]
    simp [Spring.addStiffness]
    ring

theorem assembleFDK_stiff (rep : MassSpringRepresentation)
    (st : DeformableRepresentationState) (i j : ℕ) :
    (rep.assembleFDK st).2.2 i j = springStiffnessSum rep.springs st i j := by
  rw [MassSpringRepresentation.assembleFDK, foldl_addFDK_stiff]
  simp [zeroMat, springStiffnessSum]

theorem matVec_congr (n : ℕ) (A B : Mat) (v : Vec) (i : ℕ)
    (h : ∀ a b, A a b = B a b) : matVec n A v i = matVec n B v i := by
  unfold matVec
  exact Finset.sum_congr rfl fun j _ => by rw [h]

theorem matVec_add_mat (n : ℕ) (A B : Mat) (v : Vec) (i : ℕ) :
    matVec n (fun a b => A a b + B a b) v i = matVec n A v i + matVec n B v i := by
  simp [matVec, add_mul, Finset.sum_add_distrib]

theorem matVec_zeroMat (n : ℕ) (v : Vec) (i : ℕ) : matVec n zeroMat v i = 0 := by
  simp [matVec, zeroMat]

theorem matVec_pointwise_zero (n : ℕ) (A : Mat) (v : Vec) (i : ℕ)
    (h : ∀ a b, A a b = 0) : matVec n A v i = 0 := by
  rw [matVec_congr n A zeroMat v i fun a b => h a b]
  exact matVec_zeroMat n v i

theorem matVec_smul_left (n : ℕ) (c : ℚ) (A : Mat) (v : Vec) (i : ℕ) :
    matVec n (fun a b => c * A a b) v i = c * matVec n A v i := by
  simp [matVec, Finset.mul_sum, mul_assoc]

theorem matVec_mul_const (n : ℕ) (c : ℚ) (A : Mat) (v : Vec) (i : ℕ) :
    matVec n (fun a b => A a b * c) v i = matVec n A v i * c := by
  simp [matVec, Finset.sum_mul]
  exact Finset.sum_congr rfl fun j _ => by ring

theorem matVec_diagonal (n : ℕ) (d : Vec) (v : Vec) (i : ℕ) (h : i < n) :
    matVec n (fun a b => if a = b then d a else 0) v i = d i * v i := by
  unfold matVec
  rw [Finset.sum_eq_single i]
  · simp
  · intro b _ hbi
    have : ¬ i = b := fun hh => hbi hh.symm
    simp [this]
  · intro hmem
    exact absurd (Finset.mem_range.mpr h) hmem

theorem matVec_sum_springs (l : List Spring) (st : DeformableRepresentationState)
    (n : ℕ) (v : Vec) (i : ℕ) :
    matVec n (springStiffnessSum l st) v i
      = (l.map fun s => matVec n (s.stiff st) v i).sum := by
  induction l with
  | nil => simp [springStiffnessSum, matVec]
  | cons s rest ih =>
    rw [List.map_cons, List.sum_cons, ← ih]
    rw [show springStiffnessSum (s :: rest) st
          = fun a b => s.stiff st a b + springStiffnessSum rest st a b from rfl]
    exact matVec_add_mat n _ _ v i

theorem foldl_addMatVec_apply (l : List Spring) (st : DeformableRepresentationState)
    (aK : ℚ) (hK : aK ≠ 0) (v : Vec) (n : ℕ) (f : Vec) (i : ℕ) :
    (l.foldl (fun f s => s.addMatVec st 0 aK v n f) f) i
      = f i + aK * (l.map fun s => matVec n (s.stiff st) v i).sum := by
  induction l generalizing f with
  | nil => simp
  | cons s rest ih =>
    rw [List.foldl_cons, ih]
    simp [Spring.addMatVec, hK]
    ring

/-- C2 (amended): when every spring's damping contribution is zero and
the state has no boundary conditions, the Rayleigh damping force added
via the already-assembled global matrices (as called from `computeFMDK`)
and the force added by the matrix-free path (as called from `computeF`
with the default flags) agree, and both add exactly
`-(rayleighMass * M + rayleighStiffness * K) * v` to the force vector.
Without these hypotheses the claim fails: the global-matrix path
multiplies `m_D`, which also contains the springs' own damping matrices
and the boundary-condition-modified (`1e9`) mass diagonal. -/
theorem rayleighDampingForce_paths_agree (rep : MassSpringRepresentation)
    (st : DeformableRepresentationState)
    (hd : ∀ s ∈ rep.springs, s.damp st = fun _ _ => (0 : ℚ))
    (hbc : st.boundaryConditions = [])
    (f : Vec) (i : ℕ) (hi : i < st.numDof) :
    rayleighForceGlobalMatrixPath rep st f i
        = f i + rayleighDampingForceSpec rep st i ∧
    rayleighForceMatrixFreePath rep st f i
        = f i + rayleighDampingForceSpec rep st i := by
  have hM : rep.computeM st = rep.massDiagonal := by
    rw [MassSpringRepresentation.computeM, hbc]
    rfl
  have hD1 : ∀ a b, (rep.assembleFDK st).2.1 a b = 0 := by
    intro a b
    rw [MassSpringRepresentation.assembleFDK, foldl_addFDK_damp]
    simp only [zeroMat, zero_add]
    refine List.sum_eq_zero fun x hx => ?_
    rcases List.mem_map.mp hx with ⟨s, hs, rfl⟩
    rw [hd s hs]
  have hspec : rayleighDampingForceSpec rep st i
      = -(rep.rayleighDampingMass * (rep.massDiagonal i * st.velocities i)
          + rep.rayleighDampingStiffness
            * matVec st.numDof (springStiffnessSum rep.springs st) st.velocities i) := by
    unfold rayleighDampingForceSpec
    rw [matVec_add_mat, matVec_smul_left, matVec_smul_left,
      matVec_diagonal st.numDof rep.massDiagonal st.velocities i hi]
  have hDmat : matVec st.numDof (rep.fmdkDampingMatrix st) st.velocities i
      = rep.rayleighDampingMass * (rep.massDiagonal i * st.velocities i)
        + rep.rayleighDampingStiffness
          * matVec st.numDof (springStiffnessSum rep.springs st) st.velocities i := by
    have hcong : ∀ a b, rep.fmdkDampingMatrix st a b
        = (if a = b then rep.massDiagonal a * rep.rayleighDampingMass else 0)
          + springStiffnessSum rep.springs st a b * rep.rayleighDampingStiffness := by
      intro a b
      unfold MassSpringRepresentation.fmdkDampingMatrix
      by_cases hrM : rep.rayleighDampingMass = 0 <;>
        by_cases hrS : rep.rayleighDampingStiffness = 0 <;>
          simp [hrM, hrS, hD1 a b, hM, assembleFDK_stiff]
    rw [matVec_congr st.numDof _ _ st.velocities i hcong, matVec_add_mat,
      matVec_diagonal st.numDof _ st.velocities i hi, matVec_mul_const]
    ring
  constructor
  · show rep.addRayleighDampingForce (rep.fmdkDampingMatrix st) (rep.assembleFDK st).2.2
        (rep.computeM st) st f true false false 1 i = _
    rw [MassSpringRepresentation.addRayleighDampingForce]
    by_cases hzero : rep.rayleighDampingStiffness ≠ 0 ∨ rep.rayleighDampingMass ≠ 0
    · rw [if_pos ⟨rfl, hzero⟩, hDmat, hspec]
      ring
    · push_neg at hzero
      rw [if_neg (by tauto)]
      simp [hzero.1, hzero.2, hspec]
  · show rep.addRayleighDampingForce zeroMat zeroMat zeroVec st f false false false 1 i = _
    rw [MassSpringRepresentation.addRayleighDampingForce]
    rw [if_neg (by simp)]
    by_cases hrM : rep.rayleighDampingMass = 0 <;>
      by_cases hrS : rep.rayleighDampingStiffness = 0
    · rw [if_neg (by simp [hrS]), if_neg (by simp [hrM]), hspec]
      simp [hrM, hrS]
    · rw [if_pos (by simp [hrS]), if_neg (by simp)]
      rw [foldl_addMatVec_apply rep.springs st _
          (neg_ne_zero.mpr (by simpa using hrS)) st.velocities st.numDof _ i,
        ← matVec_sum_springs]
      rw [if_neg (by simp [hrM]), hspec]
      simp [hrM]
    · rw [if_neg (by simp [hrS]), if_pos (by simp [hrM])]
      rw [if_neg (by simp)]
      rw [hspec]
      by_cases hi3 : i < 3 * rep.getNumMasses
      · rw [if_pos hi3]
        simp [MassSpringRepresentation.massDiagonal, hi3, hrS]
        ring
      · rw [if_neg hi3]
        simp [MassSpringRepresentation.massDiagonal, hi3, hrS]
    · rw [if_pos (by simp [hrS]), if_neg (by simp)]
      rw [foldl_addMatVec_apply rep.springs st _
          (neg_ne_zero.mpr (by simpa using hrS)) st.velocities st.numDof _ i,
        ← matVec_sum_springs]
      rw [if_pos (by simp [hrM]), if_neg (by simp)]
      rw [hspec]
      by_cases hi3 : i < 3 * rep.getNumMasses
      · rw [if_pos hi3]
        simp [MassSpringRepresentation.massDiagonal, hi3]
        ring
      · rw [if_neg hi3]
        simp [MassSpringRepresentation.massDiagonal, hi3]

/-- Counterexample for C2 as stated: at a one-node body with
`rayleighMass = 1` the global-matrix path does not add
`-(rayleighMass * M + rayleighStiffness * K) * v` when (first input) a
spring has a non-zero damping matrix, nor when (second input) the
boundary-condition set is non-empty. -/
theorem rayleighDampingForce_paths_counterexample :
    (rayleighForceGlobalMatrixPath
        (MassSpringRepresentation.mk [1]
          [Spring.mk (fun _ => zeroVec)
            (fun _ i j => if i = 0 ∧ j = 0 then 1 else 0) (fun _ => zeroMat)]
          1 0 false zeroVec)
        (DeformableRepresentationState.mk 3 zeroVec
          (fun i => if i = 0 then 1 else 0) [])
        zeroVec 0
      ≠ rayleighDampingForceSpec
        (MassSpringRepresentation.mk [1]
          [Spring.mk (fun _ => zeroVec)
            (fun _ i j => if i = 0 ∧ j = 0 then 1 else 0) (fun _ => zeroMat)]
          1 0 false zeroVec)
        (DeformableRepresentationState.mk 3 zeroVec
          (fun i => if i = 0 then 1 else 0) []) 0) ∧
    (rayleighForceGlobalMatrixPath
        (MassSpringRepresentation.mk [1] [] 1 0 false zeroVec)
        (DeformableRepresentationState.mk 3 zeroVec
          (fun i => if i = 0 then 1 else 0) [0])
        zeroVec 0
      ≠ rayleighDampingForceSpec
        (MassSpringRepresentation.mk [1] [] 1 0 false zeroVec)
        (DeformableRepresentationState.mk 3 zeroVec
          (fun i => if i = 0 then 1 else 0) [0]) 0) := by
  constructor
  · norm_num [rayleighForceGlobalMatrixPath, rayleighDampingForceSpec,
      MassSpringRepresentation.addRayleighDampingForce,
      MassSpringRepresentation.fmdkDampingMatrix,
      MassSpringRepresentation.assembleFDK, Spring.addFDK, Spring.addForce,
      Spring.addDamping, Spring.addStiffness, MassSpringRepresentation.computeM,
      applyBcVec, MassSpringRepresentation.massDiagonal,
      MassSpringRepresentation.getNumMasses, MassSpringRepresentation.massValue,
      springStiffnessSum, matVec, Finset.sum_range_succ, zeroVec, zeroMat]
  · norm_num [rayleighForceGlobalMatrixPath, rayleighDampingForceSpec,
      MassSpringRepresentation.addRayleighDampingForce,
      MassSpringRepresentation.fmdkDampingMatrix,
      MassSpringRepresentation.assembleFDK, Spring.addFDK, Spring.addForce,
      Spring.addDamping, Spring.addStiffness, MassSpringRepresentation.computeM,
      applyBcVec, MassSpringRepresentation.massDiagonal,
      MassSpringRepresentation.getNumMasses, MassSpringRepresentation.massValue,
      springStiffnessSum, matVec, Finset.sum_range_succ, zeroVec, zeroMat,
      Function.update]

/-- Witness for C2 (amended) at a concrete one-node, one-spring body
with an undamped spring and no boundary conditions. -/
theorem rayleighDampingForce_paths_agree_witness :
    (∀ s ∈ (MassSpringRepresentation.mk [2]
        [Spring.mk (fun _ => zeroVec) (fun _ => zeroMat)
          (fun _ i j => if i = j ∧ i < 3 then 5 else 0)]
        7 11 false zeroVec).springs,
      s.damp (DeformableRepresentationState.mk 3 zeroVec
        (fun i => if i < 3 then 1 else 0) []) = fun _ _ => (0 : ℚ)) ∧
    (DeformableRepresentationState.mk 3 zeroVec
        (fun i => if i < 3 then 1 else 0) []).boundaryConditions = [] ∧
    (0 : ℕ) < 3 ∧
    rayleighForceGlobalMatrixPath
        (MassSpringRepresentation.mk [2]
          [Spring.mk (fun _ => zeroVec) (fun _ => zeroMat)
            (fun _ i j => if i = j ∧ i < 3 then 5 else 0)]
          7 11 false zeroVec)
        (DeformableRepresentationState.mk 3 zeroVec
          (fun i => if i < 3 then 1 else 0) [])
        zeroVec 0
      = zeroVec 0 + rayleighDampingForceSpec
          (MassSpringRepresentation.mk [2]
            [Spring.mk (fun _ => zeroVec) (fun _ => zeroMat)
              (fun _ i j => if i = j ∧ i < 3 then 5 else 0)]
            7 11 false zeroVec)
          (DeformableRepresentationState.mk 3 zeroVec
            (fun i => if i < 3 then 1 else 0) []) 0 := by
  have hdW : ∀ s ∈ (MassSpringRepresentation.mk [2]
      [Spring.mk (fun _ => zeroVec) (fun _ => zeroMat)
        (fun _ i j => if i = j ∧ i < 3 then 5 else 0)]
      7 11 false zeroVec).springs,
      s.damp (DeformableRepresentationState.mk 3 zeroVec
        (fun i => if i < 3 then 1 else 0) []) = fun _ _ => (0 : ℚ) := by
    intro s hs
    rcases List.mem_singleton.mp hs with rfl
    rfl
  refine ⟨hdW, rfl, by decide, ?_⟩
  exact (rayleighDampingForce_paths_agree
    (MassSpringRepresentation.mk [2]
      [Spring.mk (fun _ => zeroVec) (fun _ => zeroMat)
        (fun _ i j => if i = j ∧ i < 3 then 5 else 0)]
      7 11 false zeroVec)
    (DeformableRepresentationState.mk 3 zeroVec
      (fun i => if i < 3 then 1 else 0) [])
    hdW rfl zeroVec 0 (by decide)).1

/-- Witness for C1 at a concrete two-node body with boundary condition 1. -/
theorem computeFMDK_boundaryConditions_witness :
    (1 : ℕ) ∈ (DeformableRepresentationState.mk 6 zeroVec zeroVec [1, 4]).boundaryConditions ∧
    ((MassSpringRepresentation.mk [1, 2] [] 0 0 false zeroVec).computeFMDK
      (DeformableRepresentationState.mk 6 zeroVec zeroVec [1, 4])).2.1 1 = 1000000000 := by
  refine ⟨by decide, ?_⟩
  exact (computeFMDK_boundaryConditions
    (MassSpringRepresentation.mk [1, 2] [] 0 0 false zeroVec)
    (DeformableRepresentationState.mk 6 zeroVec zeroVec [1, 4]) 1 (by decide)).2.1

/-! Lifecycle lemmas. -/

theorem double_update_at_first (s : ℕ → MState) (c p : ℕ) (v : MState) :
    Function.update (Function.update s c v) p v c = v := by
  by_cases h : c = p
  · subst h
    rw [Function.update_same]
  · rw [Function.update_noteq h, Function.update_same]

theorem double_update_at_other (s : ℕ → MState) (c p k : ℕ) (v : MState)
    (hkc : k ≠ c) (hkp : k ≠ p) :
    Function.update (Function.update s c v) p v k = s k := by
  rw [Function.update_noteq hkp, Function.update_noteq hkc]

theorem resetState_current (b : MassSpringBody) :
    b.resetState.store b.resetState.currentId = b.initialState := by
  show Function.update (Function.update b.store b.currentId b.initialState)
    b.previousId b.initialState b.currentId = b.initialState
  exact double_update_at_first b.store b.currentId b.previousId b.initialState

theorem resetState_previous (b : MassSpringBody) :
    b.resetState.store b.resetState.previousId = b.initialState := by
  show Function.update (Function.update b.store b.currentId b.initialState)
    b.previousId b.initialState b.previousId = b.initialState
  rw [Function.update_same]

theorem resetState_other (b : MassSpringBody) (k : ℕ)
    (hkc : k ≠ b.currentId) (hkp : k ≠ b.previousId) :
    b.resetState.store k = b.store k := by
  show Function.update (Function.update b.store b.currentId b.initialState)
    b.previousId b.initialState k = b.store k
  exact double_update_at_other b.store b.currentId b.previousId k b.initialState hkc hkp

/-- C3: for every active mass-spring body whose solver and initial state
are set, one `update(dt)` call invokes the solver exactly once and then
double-buffers by swapping: afterwards `previous` holds the buffer (and
value) that was `current` before the call, `current` holds the solver's
newly computed state (written into the old `new` buffer), `new` holds
the old `previous` buffer, and no other buffer content changes (so no
buffer is reallocated or copied element-wise). -/
theorem update_double_buffers (b : MassSpringBody)
    (solver : ℚ → MState → MState) (dt : ℚ) (ha : b.isActive = true)
    (hs : b.hasOdeSolver = true) (hinit : b.hasInitialState = true)
    (hcn : b.currentId ≠ b.newId) :
    ∃ b', b.update solver dt = some b' ∧
      b'.previousId = b.currentId ∧
      b'.currentId = b.newId ∧
      b'.newId = b.previousId ∧
      b'.finalId = b.finalId ∧
      b'.store b'.previousId = b.store b.currentId ∧
      b'.store b'.currentId = solver dt (b.store b.currentId) ∧
      (∀ k, k ≠ b.newId → b'.store k = b.store k) ∧
      b'.isActive = true ∧
      b.updateSolveCalls = 1 := by
  have hupd : b.update solver dt = some { b with
      store := Function.update b.store b.newId (solver dt (b.store b.currentId)),
      previousId := b.currentId, currentId := b.newId, newId := b.previousId } := by
    rw [MassSpringBody.update]
    rw [if_neg (by simp [ha]), if_neg (by simp [hs]), if_neg (by simp [hinit])]
  refine ⟨_, hupd, rfl, rfl, rfl, rfl, ?_, ?_, ?_, ha, ?_⟩
  · exact Function.update_noteq hcn _ _
  · exact Function.update_same _ _ _
  · intro k hk
    exact Function.update_noteq hk _ _
  · rw [MassSpringBody.updateSolveCalls]
    rw [if_neg (by simp [ha]), if_neg (by simp [hs]), if_neg (by simp [hinit])]

/-- Witness for C3 at a concrete active two-buffer body and the identity
solver. -/
theorem update_double_buffers_witness :
    (MassSpringBody.mk true (fun _ => MState.mk [] [] []) 0 1 2 3
        (MState.mk [some 0] [some 0] []) true true 1 1 3).isActive = true ∧
    (MassSpringBody.mk true (fun _ => MState.mk [] [] []) 0 1 2 3
        (MState.mk [some 0] [some 0] []) true true 1 1 3).hasOdeSolver = true ∧
    (MassSpringBody.mk true (fun _ => MState.mk [] [] []) 0 1 2 3
        (MState.mk [some 0] [some 0] []) true true 1 1 3).hasInitialState = true ∧
    (MassSpringBody.mk true (fun _ => MState.mk [] [] []) 0 1 2 3
        (MState.mk [some 0] [some 0] []) true true 1 1 3).currentId ≠
      (MassSpringBody.mk true (fun _ => MState.mk [] [] []) 0 1 2 3
        (MState.mk [some 0] [some 0] []) true true 1 1 3).newId ∧
    ∃ b', (MassSpringBody.mk true (fun _ => MState.mk [] [] []) 0 1 2 3
        (MState.mk [some 0] [some 0] []) true true 1 1 3).update
          (fun _ st => st) 1 = some b' ∧
      b'.previousId = 1 ∧ b'.currentId = 2 ∧ b'.newId = 0 := by
  refine ⟨rfl, rfl, rfl, by decide, ?_⟩
  obtain ⟨b', h1, h2, h3, h4, -⟩ := update_double_buffers
    (MassSpringBody.mk true (fun _ => MState.mk [] [] []) 0 1 2 3
      (MState.mk [some 0] [some 0] []) true true 1 1 3)
    (fun _ st => st) 1 rfl rfl rfl (by decide)
  exact ⟨b', h1, h2, h3, h4⟩

/-- C4: for every active mass-spring body, `afterUpdate` always returns
(never propagates an exception); when the current state has a non-finite
entry, the body is deactivated and its current/previous states are reset
to the initial (rest) state while the final buffer is not updated;
otherwise the current state is committed into the final buffer, nothing
else changes, and the body stays active. -/
theorem afterUpdate_validates_and_commits (b : MassSpringBody) (dt : ℚ)
    (ha : b.isActive = true)
    (hfc : b.finalId ≠ b.currentId) (hfp : b.finalId ≠ b.previousId) :
    (b.afterUpdate dt).isSome = true ∧
    (isValidState (b.store b.currentId) = false →
      ∃ b', b.afterUpdate dt = some b' ∧ b'.isActive = false ∧
        b'.store b'.currentId = b.initialState ∧
        b'.store b'.previousId = b.initialState ∧
        b'.finalId = b.finalId ∧
        b'.store b'.finalId = b.store b.finalId) ∧
    (isValidState (b.store b.currentId) = true →
      ∃ b', b.afterUpdate dt = some b' ∧ b'.isActive = true ∧
        b'.finalId = b.finalId ∧
        b'.store b'.finalId = b.store b.currentId ∧
        (∀ k, k ≠ b.finalId → b'.store k = b.store k)) := by
  refine ⟨?_, ?_, ?_⟩
  · rw [MassSpringBody.afterUpdate, if_neg (by simp [ha])]
    by_cases hv : isValidState (b.store b.currentId) = true
    · rw [if_neg (by simp [hv])]
      rfl
    · rw [if_pos (by simpa using hv)]
      rfl
  · intro hv
    refine ⟨b.deactivateAndReset, ?_, rfl, ?_, ?_, rfl, ?_⟩
    · rw [MassSpringBody.afterUpdate, if_neg (by simp [ha]),
        if_pos (by simp [hv])]
    · exact resetState_current b
    · exact resetState_previous b
    · exact resetState_other b b.finalId hfc hfp
  · intro hv
    refine ⟨{ b with store := Function.update b.store b.finalId (b.store b.currentId) },
      ?_, ha, rfl, ?_, ?_⟩
    · rw [MassSpringBody.afterUpdate, if_neg (by simp [ha]),
        if_neg (by simp [hv])]
    · show Function.update b.store b.finalId (b.store b.currentId) b.finalId = _
      rw [Function.update_same]
    · intro k hk
      show Function.update b.store b.finalId (b.store b.currentId) k = b.store k
      rw [Function.update_noteq hk]

/-- Witness for C4 at a concrete active body whose current state has a
non-finite position entry. -/
theorem afterUpdate_validates_and_commits_witness :
    (MassSpringBody.mk true (fun _ => MState.mk [none] [some 0] []) 0 1 2 3
        (MState.mk [some 0] [some 0] []) true true 1 1 3).isActive = true ∧
    ((MassSpringBody.mk true (fun _ => MState.mk [none] [some 0] []) 0 1 2 3
        (MState.mk [some 0] [some 0] []) true true 1 1 3).afterUpdate 1).isSome
      = true ∧
    ∃ b', (MassSpringBody.mk true (fun _ => MState.mk [none] [some 0] []) 0 1 2 3
        (MState.mk [some 0] [some 0] []) true true 1 1 3).afterUpdate 1 = some b' ∧
      b'.isActive = false ∧
      b'.store b'.currentId = MState.mk [some 0] [some 0] [] := by
  obtain ⟨h1, h2, -⟩ := afterUpdate_validates_and_commits
    (MassSpringBody.mk true (fun _ => MState.mk [none] [some 0] []) 0 1 2 3
      (MState.mk [some 0] [some 0] []) true true 1 1 3) 1 rfl
    (by decide) (by decide)
  obtain ⟨b', hb1, hb2, hb3, -⟩ := h2 (by decide)
  exact ⟨rfl, h1, b', hb1, hb2, hb3⟩

theorem listAdd_getD (xs ys : List EDouble) (k : ℕ)
    (hx : k < xs.length) (hy : k < ys.length) :
    (listAdd xs ys).getD k none = eAdd (xs.getD k none) (ys.getD k none) := by
  induction xs generalizing ys k with
  | nil => simp at hx
  | cons x xs ih =>
    cases ys with
    | nil => simp at hy
    | cons y ys =>
      cases k with
      | zero => simp [listAdd]
      | succ k =>
        show (listAdd xs ys).getD k none = _
        rw [ih ys k (by simpa using hx) (by simpa using hy)]
        rfl

theorem listMulScalar_getD (dt : ℚ) (delta : List EDouble) (k : ℕ)
    (h : k < delta.length) :
    (listMulScalar dt delta).getD k none = eMul (delta.getD k none) (some dt) := by
  induction delta generalizing k with
  | nil => simp at h
  | cons d ds ih =>
    cases k with
    | zero => simp [listMulScalar]
    | succ k =>
      show (listMulScalar dt ds).getD k none = _
      rw [ih k (by simpa using h)]
      rfl

/-- C5: for every active mass-spring body and correction vector,
`applyCorrection(dt, deltaVelocity)` adds `deltaVelocity * dt` to the
current positions and `deltaVelocity` to the current velocities
(entry-wise, with non-finite values propagating), and then — exactly as
in `afterUpdate` — deactivates the body and resets it to the rest state
iff the corrected state has a non-finite entry; it never fails. -/
theorem applyCorrection_adds_and_validates (b : MassSpringBody) (dt : ℚ)
    (delta : List EDouble) (ha : b.isActive = true) :
    (b.applyCorrection dt delta).isSome = true ∧
    (∀ k, k < (b.store b.currentId).positions.length → k < delta.length →
      (correctedState (b.store b.currentId) dt delta).positions.getD k none
        = eAdd ((b.store b.currentId).positions.getD k none)
            (eMul (delta.getD k none) (some dt))) ∧
    (∀ k, k < (b.store b.currentId).velocities.length → k < delta.length →
      (correctedState (b.store b.currentId) dt delta).velocities.getD k none
        = eAdd ((b.store b.currentId).velocities.getD k none) (delta.getD k none)) ∧
    (isValidState (correctedState (b.store b.currentId) dt delta) = true →
      ∃ b', b.applyCorrection dt delta = some b' ∧ b'.isActive = true ∧
        b'.store b'.currentId = correctedState (b.store b.currentId) dt delta ∧
        (∀ k, k ≠ b.currentId → b'.store k = b.store k)) ∧
    (isValidState (correctedState (b.store b.currentId) dt delta) = false →
      ∃ b', b.applyCorrection dt delta = some b' ∧ b'.isActive = false ∧
        b'.store b'.currentId = b.initialState ∧
        b'.store b'.previousId = b.initialState) := by
  refine ⟨?_, ?_, ?_, ?_, ?_⟩
  · rw [MassSpringBody.applyCorrection, if_neg (by simp [ha])]
    by_cases hv : isValidState (correctedState (b.store b.currentId) dt delta) = true
    · rw [if_neg (by simp [hv])]
      rfl
    · rw [if_pos (by simpa using hv)]
      rfl
  · intro k hk hd
    show (listAdd (b.store b.currentId).positions (listMulScalar dt delta)).getD k none = _
    rw [listAdd_getD _ _ k hk (by simpa [listMulScalar] using hd),
      listMulScalar_getD dt delta k hd]
  · intro k hk hd
    show (listAdd (b.store b.currentId).velocities delta).getD k none = _
    rw [listAdd_getD _ _ k hk hd]
  · intro hv
    refine ⟨{ b with store := Function.update b.store b.currentId (correctedState (b.store b.currentId) dt delta) }, ?_, ha, ?_, ?_⟩
    · rw [MassSpringBody.applyCorrection, if_neg (by simp [ha]),
        if_neg (by simp [hv])]
    · show Function.update b.store b.currentId
        (correctedState (b.store b.currentId) dt delta) b.currentId = _
      rw [Function.update_same]
    · intro k hk
      show Function.update b.store b.currentId
        (correctedState (b.store b.currentId) dt delta) k = b.store k
      rw [Function.update_noteq hk]
  · intro hv
    refine ⟨MassSpringBody.deactivateAndReset { b with store := Function.update b.store b.currentId (correctedState (b.store b.currentId) dt delta) }, ?_, rfl, ?_, ?_⟩
    · rw [MassSpringBody.applyCorrection, if_neg (by simp [ha]),
        if_pos (by simp [hv])]
    · exact resetState_current { b with store := Function.update b.store b.currentId (correctedState (b.store b.currentId) dt delta) }
    · exact resetState_previous { b with store := Function.update b.store b.currentId (correctedState (b.store b.currentId) dt delta) }

/-- Witness for C5 at a concrete active body with a finite correction. -/
theorem applyCorrection_adds_and_validates_witness :
    (MassSpringBody.mk true (fun _ => MState.mk [some 1] [some 2] []) 0 1 2 3
        (MState.mk [some 0] [some 0] []) true true 1 1 3).isActive = true ∧
    ((MassSpringBody.mk true (fun _ => MState.mk [some 1] [some 2] []) 0 1 2 3
        (MState.mk [some 0] [some 0] []) true true 1 1 3).applyCorrection 2
        [some 3]).isSome = true ∧
    (correctedState (MState.mk [some 1] [some 2] []) 2 [some 3]).positions.getD 0 none
      = eAdd (some 1) (eMul (some 3) (some 2)) := by
  obtain ⟨h1, h2, -⟩ := applyCorrection_adds_and_validates
    (MassSpringBody.mk true (fun _ => MState.mk [some 1] [some 2] []) 0 1 2 3
      (MState.mk [some 0] [some 0] []) true true 1 1 3) 2 [some 3] rfl
  exact ⟨rfl, h1, h2 0 (by decide) (by decide)⟩

/-- C10: for every inactive mass-spring body, each per-tick entry point
(`beforeUpdate`, `update`, `afterUpdate`, `applyCorrection`) returns
immediately with the body unchanged: no state buffer, no solver flag,
and no active flag is modified. -/
theorem inactive_entry_points_noop (b : MassSpringBody)
    (solver : ℚ → MState → MState) (dt : ℚ) (delta : List EDouble)
    (h : b.isActive = false) :
    b.beforeUpdate dt = some b ∧ b.update solver dt = some b ∧
    b.afterUpdate dt = some b ∧ b.applyCorrection dt delta = some b := by
  refine ⟨?_, ?_, ?_, ?_⟩
  · rw [MassSpringBody.beforeUpdate, if_pos h]
  · rw [MassSpringBody.update, if_pos h]
  · rw [MassSpringBody.afterUpdate, if_pos h]
  · rw [MassSpringBody.applyCorrection, if_pos h]

/-- Witness for C10 at a concrete inactive body. -/
theorem inactive_entry_points_noop_witness :
    (MassSpringBody.mk false (fun _ => MState.mk [] [] []) 0 1 2 3
        (MState.mk [] [] []) true true 1 1 3).isActive = false ∧
    (MassSpringBody.mk false (fun _ => MState.mk [] [] []) 0 1 2 3
        (MState.mk [] [] []) true true 1 1 3).beforeUpdate 1
      = some (MassSpringBody.mk false (fun _ => MState.mk [] [] []) 0 1 2 3
        (MState.mk [] [] []) true true 1 1 3) ∧
    (MassSpringBody.mk false (fun _ => MState.mk [] [] []) 0 1 2 3
        (MState.mk [] [] []) true true 1 1 3).afterUpdate 1
      = some (MassSpringBody.mk false (fun _ => MState.mk [] [] []) 0 1 2 3
        (MState.mk [] [] []) true true 1 1 3) := by
  obtain ⟨h1, -, h3, -⟩ := inactive_entry_points_noop
    (MassSpringBody.mk false (fun _ => MState.mk [] [] []) 0 1 2 3
      (MState.mk [] [] []) true true 1 1 3) (fun _ st => st) 1 [] rfl
  exact ⟨rfl, h1, h3⟩

/-! Runge-Kutta 4, coordinates, element validation. -/

theorem V3.add_def (a b : V3) : a + b = V3.add a b := rfl

/-- C6: for the point mass under constant gravity with zero viscosity,
one RK4 solve step of `dt = 1e-3` equals the closed-form four-stage
combination written out in the test, for every input state `y` and mass
`m` (the input state is left unchanged: the model solver is a pure
function of it); at the default zero state the position and velocity
deltas lie purely along the gravity (`-y`) axis, the `x` and `z`
components being exactly zero. -/
theorem rk4Solve_matches_doSolveTest (m : ℚ) (y : MassPointState) :
    rk4Solve (massPointODE m 0 massPointGravity) (1 / 1000) y
      = doSolveTestExpected massPointGravity (1 / 1000) y ∧
    (rk4Solve (massPointODE m 0 massPointGravity) (1 / 1000)
      (MassPointState.mk (V3.mk 0 0 0) (V3.mk 0 0 0))).pos.x = 0 ∧
    (rk4Solve (massPointODE m 0 massPointGravity) (1 / 1000)
      (MassPointState.mk (V3.mk 0 0 0) (V3.mk 0 0 0))).pos.z = 0 ∧
    (rk4Solve (massPointODE m 0 massPointGravity) (1 / 1000)
      (MassPointState.mk (V3.mk 0 0 0) (V3.mk 0 0 0))).vel.x = 0 ∧
    (rk4Solve (massPointODE m 0 massPointGravity) (1 / 1000)
      (MassPointState.mk (V3.mk 0 0 0) (V3.mk 0 0 0))).vel.z = 0 := by
  have hmain : ∀ z : MassPointState,
      rk4Solve (massPointODE m 0 massPointGravity) (1 / 1000) z
        = doSolveTestExpected massPointGravity (1 / 1000) z := by
    intro z
    simp only [rk4Solve, massPointODE, doSolveTestExpected, MassPointState.add,
      MassPointState.smul, V3.add_def, V3.add, V3.smul, massPointGravity,
      MassPointState.mk.injEq, V3.mk.injEq]
    refine ⟨⟨?_, ?_, ?_⟩, ?_, ?_, ?_⟩ <;> ring
  refine ⟨hmain y, ?_, ?_, ?_, ?_⟩ <;>
    rw [hmain] <;>
      norm_num [doSolveTestExpected, massPointGravity, V3.add_def, V3.add, V3.smul]

set_option maxHeartbeats 2000000 in
/-- C7: for every initialized tetrahedron element with mass density
`rho` and rest positions `p0..p3` (rest volume `V = getVolume`), the
cached 12x12 local mass matrix has, with `coef = rho * V / 20`, every
diagonal 3x3 block equal to `2 coef * I` and every off-diagonal 3x3
block equal to `coef * I`. -/
theorem tetComputeMass_block_pattern (rho : ℚ) (p0 p1 p2 p3 : V3) (i j : ℕ)
    (hi : i < 12) (hj : j < 12) :
    tetComputeMass rho p0 p1 p2 p3 i j =
      if i % 3 = j % 3 then
        (if i / 3 = j / 3 then 2 else 1) * (rho * tetGetVolume p0 p1 p2 p3 / 20)
      else 0 := by
  interval_cases i <;> interval_cases j <;>
    norm_num [tetComputeMass, writeBlock3] <;> ring

/-- Witness for C7 at the off-diagonal block entry (0, 3) of a unit
tetrahedron with density 120. -/
theorem tetComputeMass_block_pattern_witness :
    (0:ℕ) < 12 ∧ (3:ℕ) < 12 ∧
    tetComputeMass 120 (V3.mk 0 0 0) (V3.mk 1 0 0) (V3.mk 0 1 0) (V3.mk 0 0 1) 0 3
      = if 0 % 3 = 3 % 3 then
          ((if 0 / 3 = 3 / 3 then 2 else 1) : ℚ)
            * (120 * tetGetVolume (V3.mk 0 0 0) (V3.mk 1 0 0) (V3.mk 0 1 0)
                (V3.mk 0 0 1) / 20)
        else 0 :=
  ⟨by decide, by decide,
    tetComputeMass_block_pattern 120 (V3.mk 0 0 0) (V3.mk 1 0 0) (V3.mk 0 1 0)
      (V3.mk 0 0 1) 0 3 (by decide) (by decide)⟩

/-- C8: `isValidCoordinate` holds iff the natural coordinate has 4
components summing to 1 within `ScalarEpsilon = 1e-10`, and
`computeCartesianCoordinate` fails exactly when `isValidCoordinate` is
false, otherwise returning the nodal positions interpolated by the
natural-coordinate weights. -/
theorem tetCoordinate_spec (p0 p1 p2 p3 : V3) (c : List ℚ) :
    (tetIsValidCoordinate c = true ↔
      (c.length = 4 ∧ |c.sum - 1| < ScalarEpsilon)) ∧
    ((tetComputeCartesianCoordinate p0 p1 p2 p3 c).isSome = true ↔
      tetIsValidCoordinate c = true) ∧
    (tetIsValidCoordinate c = true →
      tetComputeCartesianCoordinate p0 p1 p2 p3 c
        = some (V3.smul (c.getD 0 0) p0 + V3.smul (c.getD 1 0) p1
            + V3.smul (c.getD 2 0) p2 + V3.smul (c.getD 3 0) p3)) := by
  refine ⟨?_, ?_, ?_⟩
  · rw [tetIsValidCoordinate]
    simp only [Bool.and_eq_true, decide_eq_true_eq]
    exact and_comm
  · constructor
    · intro hs
      by_contra hv
      rw [tetComputeCartesianCoordinate, if_neg hv] at hs
      simp at hs
    · intro hv
      rw [tetComputeCartesianCoordinate, if_pos hv]
      rfl
  · intro hv
    rw [tetComputeCartesianCoordinate, if_pos hv]

/-- Witness for C8 at the natural coordinate `[1, 0, 0, 0]` of a
concrete tetrahedron. -/
theorem tetCoordinate_spec_witness :
    tetIsValidCoordinate [1, 0, 0, 0] = true ∧
    tetComputeCartesianCoordinate (V3.mk 1 2 3) (V3.mk 4 5 6) (V3.mk 7 8 9)
        (V3.mk 10 11 12) [1, 0, 0, 0]
      = some (V3.smul 1 (V3.mk 1 2 3) + V3.smul 0 (V3.mk 4 5 6)
          + V3.smul 0 (V3.mk 7 8 9) + V3.smul 0 (V3.mk 10 11 12)) := by
  have hv : tetIsValidCoordinate [1, 0, 0, 0] = true := by
    norm_num [tetIsValidCoordinate, ScalarEpsilon]
  refine ⟨hv, ?_⟩
  have := (tetCoordinate_spec (V3.mk 1 2 3) (V3.mk 4 5 6) (V3.mk 7 8 9)
    (V3.mk 10 11 12) [1, 0, 0, 0]).2.2 hv
  simpa using this

/-- C9: `initialize` fails exactly when a material parameter is invalid
(mass density not positive, Young's modulus not positive, Poisson ratio
outside [0, 0.5)) or a referenced node id is out of range of the rest
state; with valid parameters and in-range node ids it succeeds and
caches the element data. -/
theorem femElementInit_validation (rho E nu : ℚ) (nodeIds : List ℕ)
    (numNodes : ℕ) (p0 p1 p2 p3 : V3) :
    (femElement3DTetrahedronInit rho E nu nodeIds numNodes p0 p1 p2 p3).isSome = true
      ↔ (0 < rho ∧ 0 < E ∧ 0 ≤ nu ∧ nu < 1 / 2 ∧
          ∀ nodeId ∈ nodeIds, nodeId < numNodes) := by
  rw [femElement3DTetrahedronInit]
  by_cases h1 : validMaterialParameters rho E nu = true
  · by_cases h2 : (nodeIds.all fun nodeId => decide (nodeId < numNodes)) = true
    · rw [if_neg (by simpa using h1), if_neg (by simpa using h2)]
      simp only [Option.isSome_some, true_iff]
      simp only [validMaterialParameters, Bool.and_eq_true, decide_eq_true_eq] at h1
      simp only [List.all_eq_true, decide_eq_true_eq] at h2
      exact ⟨h1.1.1.1, h1.1.1.2, h1.1.2, h1.2, h2⟩
    · rw [if_neg (by simpa using h1), if_pos (by simpa using h2)]
      constructor
      · intro hs
        exact absurd hs (by simp)
      · intro hc
        refine ((show False from ?_)).elim
        apply h2
        simp only [List.all_eq_true, decide_eq_true_eq]
        exact fun nodeId hn => hc.2.2.2.2 nodeId hn
  · rw [if_pos (by simpa using h1)]
    constructor
    · intro hs
      exact absurd hs (by simp)
    · intro hc
      refine ((show False from ?_)).elim
      apply h1
      simp only [validMaterialParameters, Bool.and_eq_true, decide_eq_true_eq]
      exact ⟨⟨⟨hc.1, hc.2.1⟩, hc.2.2.1⟩, hc.2.2.2.1⟩

/-- Witness for C9: a valid element succeeds, an invalid Poisson ratio
fails. -/
theorem femElementInit_validation_witness :
    ((0:ℚ) < 1 ∧ (0:ℚ) < 2 ∧ (0:ℚ) ≤ 0 ∧ (0:ℚ) < 1 / 2 ∧
      ∀ nodeId ∈ [0, 1, 2, 3], nodeId < 4) ∧
    (femElement3DTetrahedronInit 1 2 0 [0, 1, 2, 3] 4 (V3.mk 0 0 0)
      (V3.mk 1 0 0) (V3.mk 0 1 0) (V3.mk 0 0 1)).isSome = true := by
  have hc : (0:ℚ) < 1 ∧ (0:ℚ) < 2 ∧ (0:ℚ) ≤ 0 ∧ (0:ℚ) < 1 / 2 ∧
      ∀ nodeId ∈ [0, 1, 2, 3], nodeId < 4 := by
    refine ⟨by norm_num, by norm_num, le_refl 0, by norm_num, by decide⟩
  exact ⟨hc, (femElementInit_validation 1 2 0 [0, 1, 2, 3] 4 (V3.mk 0 0 0)
    (V3.mk 1 0 0) (V3.mk 0 1 0) (V3.mk 0 0 1)).mpr hc⟩

end OpenSurgSim
